import Mathlib

/-!
Verification of the tokenring-ai/vault core: the crypto envelope functions
(`encrypt`, `decrypt`, `deriveKey` in `src/commands/vault.ts`), the vault file
contract (`readVault`, `writeVault`, `initVault`), and the `VaultService`
session state machine (`src/VaultService.ts`).

Bytes are modelled as natural numbers below 256 (`List Nat`); strings that the
code treats as byte sequences enter the model as their byte lists.  Randomness
(`crypto.randomBytes`) is passed explicitly as `salt` / `iv` parameters.
-/

deriving instance DecidableEq for Except

set_option maxRecDepth 100000

namespace Vault

/-! ## Base64 (models Node's `Buffer.toString('base64')` / `Buffer.from(_, 'base64')`)

Node's base64 decoder is lenient: characters outside the alphabet (including
padding) are dropped and trailing bits that do not fill a byte are discarded.
It never throws. -/

/-- The standard base64 alphabet, as a function from sextet to character. -/
def sixtetToChar (s : Nat) : Char :=
  if s < 26 then Char.ofNat (65 + s)
  else if s < 52 then Char.ofNat (97 + (s - 26))
  else if s < 62 then Char.ofNat (48 + (s - 52))
  else if s = 62 then Char.ofNat 43
  else Char.ofNat 47

/-- Inverse alphabet lookup; `none` for any character outside the alphabet
(Node's decoder drops these, including the padding character). -/
def charToSixtet (c : Char) : Option Nat :=
  let n := c.toNat
  if 65 ≤ n ∧ n ≤ 90 then some (n - 65)
  else if 97 ≤ n ∧ n ≤ 122 then some (n - 97 + 26)
  else if 48 ≤ n ∧ n ≤ 57 then some (n - 48 + 52)
  else if n = 43 then some 62
  else if n = 47 then some 63
  else none

/-- Regroup 8-bit bytes into 6-bit sextets (3 bytes become 4 sextets). -/
def bytesToSextets : List Nat → List Nat
  | a :: b :: c :: rest =>
      a / 4 :: ((a % 4) * 16 + b / 16) :: ((b % 16) * 4 + c / 64) :: (c % 64) ::
        bytesToSextets rest
  | [a, b] => [a / 4, (a % 4) * 16 + b / 16, (b % 16) * 4]
  | [a] => [a / 4, (a % 4) * 16]
  | [] => []

/-- Regroup 6-bit sextets back into 8-bit bytes, discarding trailing bits that
do not fill a byte (as Node's decoder does). -/
def sextetsToBytes : List Nat → List Nat
  | s1 :: s2 :: s3 :: s4 :: rest =>
      (s1 * 4 + s2 / 16) :: ((s2 % 16) * 16 + s3 / 4) :: ((s3 % 4) * 64 + s4) ::
        sextetsToBytes rest
  | [s1, s2, s3] => [s1 * 4 + s2 / 16, (s2 % 16) * 16 + s3 / 4]
  | [s1, s2] => [s1 * 4 + s2 / 16]
  | [_] => []
  | [] => []

/-- Number of padding characters appended by the encoder. -/
def b64PadLen (n : Nat) : Nat := (3 - n % 3) % 3

/-- `Buffer.toString('base64')`: sextets mapped through the alphabet plus
padding characters. -/
def b64Encode (l : List Nat) : String :=
  String.mk ((bytesToSextets l).map sixtetToChar ++
    List.replicate (b64PadLen l.length) (Char.ofNat 61))

/-- `Buffer.from(s, 'base64')`: lenient decode — non-alphabet characters are
dropped, leftover bits discarded.  Total; never fails. -/
def b64DecodeLenient (s : String) : List Nat :=
  sextetsToBytes (s.data.filterMap charToSixtet)

theorem charToSixtet_sixtetToChar : ∀ s < 64, charToSixtet (sixtetToChar s) = some s := by
  decide

theorem bytesToSextets_lt (l : List Nat) (h : ∀ b ∈ l, b < 256) :
    ∀ s ∈ bytesToSextets l, s < 64 := by
  induction l using bytesToSextets.induct with
  | case1 a b c rest ih =>
    have ha := h a (by simp)
    have hb := h b (by simp)
    have hc := h c (by simp)
    intro s hs
    simp only [bytesToSextets, List.mem_cons] at hs
    rcases hs with rfl | rfl | rfl | rfl | hs
    · omega
    · omega
    · omega
    · omega
    · exact ih (fun x hx => h x (by simp [hx])) s hs
  | case2 a b =>
    have ha := h a (by simp)
    have hb := h b (by simp)
    intro s hs
    simp only [bytesToSextets, List.mem_cons] at hs
    rcases hs with rfl | rfl | rfl | hs
    · omega
    · omega
    · omega
    · simp at hs
  | case3 a =>
    have ha := h a (by simp)
    intro s hs
    simp only [bytesToSextets, List.mem_cons] at hs
    rcases hs with rfl | rfl | hs
    · omega
    · omega
    · simp at hs
  | case4 =>
    intro s hs
    simp [bytesToSextets] at hs

theorem sextetsToBytes_bytesToSextets (l : List Nat) (h : ∀ b ∈ l, b < 256) :
    sextetsToBytes (bytesToSextets l) = l := by
  induction l using bytesToSextets.induct with
  | case1 a b c rest ih =>
    have ha := h a (by simp)
    have hb := h b (by simp)
    have hc := h c (by simp)
    simp only [bytesToSextets, sextetsToBytes, List.cons.injEq]
    refine ⟨by omega, by omega, by omega, ih (fun x hx => h x (by simp [hx]))⟩
  | case2 a b =>
    have ha := h a (by simp)
    have hb := h b (by simp)
    simp only [bytesToSextets, sextetsToBytes, List.cons.injEq]
    refine ⟨by omega, by omega, trivial⟩
  | case3 a =>
    have ha := h a (by simp)
    simp only [bytesToSextets, sextetsToBytes, List.cons.injEq]
    refine ⟨by omega, trivial⟩
  | case4 => rfl

theorem filterMap_charToSixtet_map (l : List Nat) (h : ∀ s ∈ l, s < 64) :
    List.filterMap charToSixtet (l.map sixtetToChar) = l := by
  induction l with
  | nil => rfl
  | cons x xs ih =>
    have hx := charToSixtet_sixtetToChar x (h x (by simp))
    simp only [List.map_cons, List.filterMap_cons, hx]
    exact congrArg (x :: ·) (ih (fun s hs => h s (by simp [hs])))

theorem filterMap_charToSixtet_pad (n : Nat) :
    List.filterMap charToSixtet (List.replicate n (Char.ofNat 61)) = [] := by
  have h61 : charToSixtet (Char.ofNat 61) = none := by decide
  induction n with
  | zero => rfl
  | succ k ih => simp [List.replicate_succ, List.filterMap_cons, h61, ih]

/-- Round trip of the base64 transport layer on genuine byte sequences. -/
theorem b64_roundtrip (l : List Nat) (h : ∀ b ∈ l, b < 256) :
    b64DecodeLenient (b64Encode l) = l := by
  show sextetsToBytes (List.filterMap charToSixtet
    ((bytesToSextets l).map sixtetToChar ++
      List.replicate (b64PadLen l.length) (Char.ofNat 61))) = l
  rw [List.filterMap_append, filterMap_charToSixtet_map _ (bytesToSextets_lt l h),
    filterMap_charToSixtet_pad, List.append_nil,
    sextetsToBytes_bytesToSextets l h]

/-! ## Crypto primitives

`deriveKey` wraps `crypto.pbkdf2Sync(password, salt, 100000, 32, 'sha256')` and
`encrypt`/`decrypt` use Node's AES-256-GCM cipher.  Those library primitives
are modelled as concrete deterministic functions with the structure that
matters for the envelope contract: GCM is counter-mode, so the ciphertext is
the plaintext XORed with a keystream determined by (key, iv), plus a 16-byte
authentication tag determined by (key, iv, ciphertext). -/

/-- The bytes of a string (passwords reach PBKDF2 as their UTF-8 bytes). -/
def strBytes (s : String) : List Nat := s.data.map Char.toNat

def mixStep (acc b : Nat) : Nat := (acc * 131 + b + 7) % 1000000007

def hashBytes (l : List Nat) : Nat := l.foldl mixStep 5381

/-- Models `crypto.pbkdf2Sync(password, salt, 100000, 32, 'sha256')`: a
deterministic function of (password, salt) producing a 32-byte key. -/
def deriveKey (password : String) (salt : List Nat) : List Nat :=
  let h := hashBytes (strBytes password ++ 0 :: salt)
  (List.range 32).map (fun i => (h + 37 * i + i * i) % 256)

/-- Models the CTR-mode keystream of AES-256-GCM under (key, iv). -/
def keystream (key iv : List Nat) (n : Nat) : List Nat :=
  let h := hashBytes (key ++ 1 :: iv)
  (List.range n).map (fun i => (h + 101 * i + 3 * i * i) % 256)

/-- Models the 16-byte GCM authentication tag over (key, iv, ciphertext). -/
def ghash (key iv ct : List Nat) : List Nat :=
  let h := hashBytes (key ++ 2 :: iv ++ 3 :: ct)
  (List.range 16).map (fun i => (h + 59 * i + 5 * i * i) % 256)

theorem keystream_length (key iv : List Nat) (n : Nat) :
    (keystream key iv n).length = n := by
  simp [keystream]

theorem ghash_length (key iv ct : List Nat) : (ghash key iv ct).length = 16 := by
  simp [ghash]

theorem keystream_bound (key iv : List Nat) (n : Nat) :
    ∀ b ∈ keystream key iv n, b < 256 := by
  intro b hb
  simp only [keystream, List.mem_map] at hb
  obtain ⟨i, _, rfl⟩ := hb
  exact Nat.mod_lt _ (by norm_num)

theorem ghash_bound (key iv ct : List Nat) : ∀ b ∈ ghash key iv ct, b < 256 := by
  intro b hb
  simp only [ghash, List.mem_map] at hb
  obtain ⟨i, _, rfl⟩ := hb
  exact Nat.mod_lt _ (by norm_num)

/-- The error outcomes observable from the vault core.  The first group are
the failures the code can actually raise (via the crypto library, `JSON.parse`
or its own `throw new Error(...)` sites); `malformedEnvelope` and
`corruptData` are the extra structural error kinds named by the specification,
included so that claims about them can be stated. -/
inductive VErr where
  | invalidIV
  | invalidAuthTagLength
  | authFailed
  | jsonSyntax
  | notFound
  | decryptFailed
  | emptyPassword
  | mustUnlock
  | malformedEnvelope
  | corruptData
  deriving DecidableEq, Repr

/-- Tag lengths accepted by Node's `decipher.setAuthTag` for GCM when no
explicit `authTagLength` was configured. -/
def allowedTagLengths : List Nat := [4, 8, 12, 13, 14, 15, 16]

/-- `encrypt(data, password)` from `src/commands/vault.ts`: derive a key from
the password and a fresh 16-byte salt, AES-256-GCM encrypt under a fresh
12-byte iv, then base64-encode salt ‖ iv ‖ authTag ‖ ciphertext.  The fresh
random bytes are explicit `salt` / `iv` parameters. -/
def encrypt (data : List Nat) (password : String) (salt iv : List Nat) : String :=
  let key := deriveKey password salt
  let encrypted := List.zipWith Nat.xor data (keystream key iv data.length)
  let authTag := ghash key iv encrypted
  b64Encode (salt ++ iv ++ authTag ++ encrypted)

/-- `decrypt(encryptedData, password)` from `src/commands/vault.ts`: lenient
base64 decode, split at the fixed offsets 16/28/44, derive the key from the
embedded salt, then AES-256-GCM decrypt.  The code performs no structural
checks of its own; the error branches model the crypto library's behaviour
(`createDecipheriv` rejects an empty GCM iv, `setAuthTag` rejects tags outside
`allowedTagLengths`, and `decipher.final` fails when the tag does not
verify). -/
def decrypt (encryptedData : String) (password : String) : Except VErr (List Nat) :=
  let combined := b64DecodeLenient encryptedData
  let salt := combined.take 16
  let iv := (combined.drop 16).take 12
  let authTag := (combined.drop 28).take 16
  let encrypted := combined.drop 44
  let key := deriveKey password salt
  if iv.length = 0 then Except.error VErr.invalidIV
  else if authTag.length ∈ allowedTagLengths then
    if (ghash key iv encrypted).take authTag.length = authTag then
      Except.ok (List.zipWith Nat.xor encrypted (keystream key iv encrypted.length))
    else Except.error VErr.authFailed
  else Except.error VErr.invalidAuthTagLength

theorem take_len_of_append {α : Type} {l1 l2 : List α} {n : Nat}
    (h : l1.length = n) : (l1 ++ l2).take n = l1 := by
  subst h; simp

theorem drop_len_of_append {α : Type} {l1 l2 : List α} {n : Nat}
    (h : l1.length = n) : (l1 ++ l2).drop n = l2 := by
  subst h; simp

theorem xor_xor_cancel (x k : Nat) : Nat.xor (Nat.xor x k) k = x := by
  show (x ^^^ k) ^^^ k = x
  rw [Nat.xor_assoc, Nat.xor_self, Nat.xor_zero]

theorem zipWith_xor_cancel :
    ∀ (d ks : List Nat), d.length ≤ ks.length →
      List.zipWith Nat.xor (List.zipWith Nat.xor d ks) ks = d := by
  intro d
  induction d with
  | nil => intro ks _; rfl
  | cons x xs ih =>
    intro ks h
    cases ks with
    | nil => simp at h
    | cons k kt =>
      simp only [List.zipWith]
      rw [xor_xor_cancel, ih kt (by simpa using h)]

theorem zipWith_xor_bound :
    ∀ (d ks : List Nat), (∀ b ∈ d, b < 256) → (∀ b ∈ ks, b < 256) →
      ∀ b ∈ List.zipWith Nat.xor d ks, b < 256 := by
  intro d
  induction d with
  | nil => intro ks _ _ b hb; simp [List.zipWith] at hb
  | cons x xs ih =>
    intro ks hd hks b hb
    cases ks with
    | nil => simp [List.zipWith] at hb
    | cons k kt =>
      simp only [List.zipWith, List.mem_cons] at hb
      rcases hb with rfl | hb
      · have hx := hd x (by simp)
        have hk := hks k (by simp)
        have : x ^^^ k < 2 ^ 8 := Nat.xor_lt_two_pow (by simpa using hx) (by simpa using hk)
        simpa using this
      · exact ih kt (fun y hy => hd y (by simp [hy])) (fun y hy => hks y (by simp [hy])) b hb

/-- Decrypting a well-formed envelope reduces to the tag check plus keystream
XOR: the fixed-offset split in `decrypt` exactly undoes the concatenation in
`encrypt`. -/
theorem decrypt_envelope (saltL ivL tagL ctL : List Nat) (P : String)
    (hsaltLen : saltL.length = 16) (hivLen : ivL.length = 12)
    (htagLen : tagL.length = 16)
    (hbytes : ∀ b ∈ saltL ++ ivL ++ tagL ++ ctL, b < 256) :
    decrypt (b64Encode (saltL ++ ivL ++ tagL ++ ctL)) P =
      if ghash (deriveKey P saltL) ivL ctL = tagL then
        Except.ok (List.zipWith Nat.xor ctL (keystream (deriveKey P saltL) ivL ctL.length))
      else Except.error VErr.authFailed := by
  have hcomb := b64_roundtrip _ hbytes
  have hassoc : saltL ++ ivL ++ tagL ++ ctL = saltL ++ (ivL ++ (tagL ++ ctL)) := by
    simp [List.append_assoc]
  have d16 : (saltL ++ ivL ++ tagL ++ ctL).drop 16 = ivL ++ (tagL ++ ctL) := by
    rw [hassoc]; exact drop_len_of_append hsaltLen
  have t16 : (saltL ++ ivL ++ tagL ++ ctL).take 16 = saltL := by
    rw [hassoc]; exact take_len_of_append hsaltLen
  have tIv : ((saltL ++ ivL ++ tagL ++ ctL).drop 16).take 12 = ivL := by
    rw [d16]; exact take_len_of_append hivLen
  have d28 : (saltL ++ ivL ++ tagL ++ ctL).drop 28 = tagL ++ ctL := by
    rw [show (28 : Nat) = 16 + 12 from rfl, ← List.drop_drop, d16]
    exact drop_len_of_append hivLen
  have tTag : ((saltL ++ ivL ++ tagL ++ ctL).drop 28).take 16 = tagL := by
    rw [d28]; exact take_len_of_append htagLen
  have d44 : (saltL ++ ivL ++ tagL ++ ctL).drop 44 = ctL := by
    rw [show (44 : Nat) = 28 + 16 from rfl, ← List.drop_drop, d28]
    exact drop_len_of_append htagLen
  simp only [decrypt, hcomb, t16, tIv, tTag, d44, hivLen, htagLen]
  rw [if_neg (by norm_num)]
  rw [if_pos (by simp [allowedTagLengths])]
  rw [List.take_of_length_le (le_of_eq (ghash_length (deriveKey P saltL) ivL ctL))]

/-- C1: For every password P and every plaintext T, decrypting the envelope
produced by `encrypt(T, P)` with the same password P returns T.  The fresh
random salt (16 bytes) and iv (12 bytes) drawn inside `encrypt` are explicit
parameters. -/
theorem C1_round_trip (T : List Nat) (P : String) (salt iv : List Nat)
    (hT : ∀ b ∈ T, b < 256) (hsaltLen : salt.length = 16)
    (hsalt : ∀ b ∈ salt, b < 256) (hivLen : iv.length = 12)
    (hiv : ∀ b ∈ iv, b < 256) :
    decrypt (encrypt T P salt iv) P = Except.ok T := by
  have hks := keystream_bound (deriveKey P salt) iv T.length
  have hct : ∀ b ∈ List.zipWith Nat.xor T (keystream (deriveKey P salt) iv T.length), b < 256 :=
    zipWith_xor_bound _ _ hT hks
  have htagB := ghash_bound (deriveKey P salt) iv
    (List.zipWith Nat.xor T (keystream (deriveKey P salt) iv T.length))
  have hbytes : ∀ b ∈ salt ++ iv ++
      ghash (deriveKey P salt) iv (List.zipWith Nat.xor T (keystream (deriveKey P salt) iv T.length)) ++
      List.zipWith Nat.xor T (keystream (deriveKey P salt) iv T.length), b < 256 := by
    intro b hb
    simp only [List.mem_append] at hb
    rcases hb with ((hb | hb) | hb) | hb
    · exact hsalt b hb
    · exact hiv b hb
    · exact htagB b hb
    · exact hct b hb
  have henc : encrypt T P salt iv = b64Encode (salt ++ iv ++
      ghash (deriveKey P salt) iv (List.zipWith Nat.xor T (keystream (deriveKey P salt) iv T.length)) ++
      List.zipWith Nat.xor T (keystream (deriveKey P salt) iv T.length)) := rfl
  rw [henc, decrypt_envelope _ _ _ _ _ hsaltLen hivLen (ghash_length _ _ _) hbytes,
    if_pos rfl]
  have hlen : (List.zipWith Nat.xor T (keystream (deriveKey P salt) iv T.length)).length
      = T.length := by
    rw [List.length_zipWith, keystream_length, Nat.min_self]
  rw [hlen]
  exact congrArg Except.ok (zipWith_xor_cancel T _ (le_of_eq (keystream_length _ _ _).symm))

theorem C1_round_trip_witness :
    decrypt (encrypt [104, 105] "pw" (List.replicate 16 7) (List.replicate 12 3)) "pw"
      = Except.ok [104, 105] :=
  C1_round_trip [104, 105] "pw" (List.replicate 16 7) (List.replicate 12 3)
    (by decide) (by decide) (by decide) (by decide) (by decide)

/-! ## JSON (models `JSON.parse` / `JSON.stringify` from the JS runtime)

`readVault` returns `JSON.parse(decryptedContent)` after an unchecked type
cast, so the model works with the full space of JSON values, not just flat
string maps.  Text is handled at the byte level; the model covers the JSON
fragment the vault can store (strings with basic escapes, integers, booleans,
null, arrays, objects; fractional and exponent number forms are outside the
vault's value space).  Duplicate object keys follow the runtime's last-wins
rule. -/

inductive Json where
  | jnull
  | jbool (b : Bool)
  | jnum (n : Int)
  | jstr (s : List Nat)
  | jarr (xs : List Json)
  | jobj (fields : List (List Nat × Json))

def skipWs : List Nat → List Nat
  | b :: rest => if b = 32 ∨ b = 9 ∨ b = 10 ∨ b = 13 then skipWs rest else b :: rest
  | [] => []

/-- Parse the remainder of a JSON string literal (after the opening quote),
returning the decoded bytes and the input after the closing quote. -/
def parseStringLit : Nat → List Nat → Option (List Nat × List Nat)
  | 0, _ => none
  | _, [] => none
  | fuel + 1, b :: rest =>
    if b = 34 then some ([], rest)
    else if b = 92 then
      match rest with
      | c :: rest2 =>
        let decoded := if c = 110 then 10 else if c = 116 then 9 else c
        match parseStringLit fuel rest2 with
        | some (s, r) => some (decoded :: s, r)
        | none => none
      | [] => none
    else
      match parseStringLit fuel rest with
      | some (s, r) => some (b :: s, r)
      | none => none

def takeDigits : List Nat → List Nat × List Nat
  | b :: rest =>
    if 48 ≤ b ∧ b ≤ 57 then
      let (d, r) := takeDigits rest
      (b :: d, r)
    else ([], b :: rest)
  | [] => ([], [])

def digitsToNat (l : List Nat) : Nat := l.foldl (fun acc d => acc * 10 + (d - 48)) 0

/-- Property assignment on a JS object: replace in place if the key is
present (keeping its position), append otherwise. -/
def objInsert (fields : List (List Nat × Json)) (k : List Nat) (v : Json) :
    List (List Nat × Json) :=
  if fields.any (fun p => p.1 = k) then
    fields.map (fun p => if p.1 = k then (k, v) else p)
  else fields ++ [(k, v)]

mutual

def parseVal : Nat → List Nat → Option (Json × List Nat)
  | 0, _ => none
  | fuel + 1, input =>
    match skipWs input with
    | [] => none
    | b :: rest =>
      if b = 123 then
        match skipWs rest with
        | 125 :: r2 => some (Json.jobj [], r2)
        | r1 =>
          match parseMembers fuel r1 [] with
          | some (fields, r2) => some (Json.jobj fields, r2)
          | none => none
      else if b = 91 then
        match skipWs rest with
        | 93 :: r2 => some (Json.jarr [], r2)
        | r1 =>
          match parseElems fuel r1 [] with
          | some (xs, r2) => some (Json.jarr xs, r2)
          | none => none
      else if b = 34 then
        match parseStringLit (rest.length + 1) rest with
        | some (s, r) => some (Json.jstr s, r)
        | none => none
      else if b = 116 then
        match rest with
        | 114 :: 117 :: 101 :: r => some (Json.jbool true, r)
        | _ => none
      else if b = 102 then
        match rest with
        | 97 :: 108 :: 115 :: 101 :: r => some (Json.jbool false, r)
        | _ => none
      else if b = 110 then
        match rest with
        | 117 :: 108 :: 108 :: r => some (Json.jnull, r)
        | _ => none
      else if b = 45 then
        match takeDigits rest with
        | ([], _) => none
        | (ds, r) => some (Json.jnum (-(digitsToNat ds : Int)), r)
      else if 48 ≤ b ∧ b ≤ 57 then
        match takeDigits (b :: rest) with
        | (ds, r) => some (Json.jnum ((digitsToNat ds : Int)), r)
      else none

def parseMembers : Nat → List Nat → List (List Nat × Json) →
    Option (List (List Nat × Json) × List Nat)
  | 0, _, _ => none
  | fuel + 1, input, acc =>
    match skipWs input with
    | 34 :: rest =>
      match parseStringLit (rest.length + 1) rest with
      | some (k, r1) =>
        match skipWs r1 with
        | 58 :: r2 =>
          match parseVal fuel r2 with
          | some (v, r3) =>
            match skipWs r3 with
            | 44 :: r4 => parseMembers fuel r4 (objInsert acc k v)
            | 125 :: r4 => some (objInsert acc k v, r4)
            | _ => none
          | none => none
        | _ => none
      | none => none
    | _ => none

def parseElems : Nat → List Nat → List Json → Option (List Json × List Nat)
  | 0, _, _ => none
  | fuel + 1, input, acc =>
    match parseVal fuel input with
    | some (v, r1) =>
      match skipWs r1 with
      | 44 :: r2 => parseElems fuel r2 (acc ++ [v])
      | 93 :: r2 => some (acc ++ [v], r2)
      | _ => none
    | none => none

end

/-- Models `JSON.parse` on the byte sequence of the decrypted plaintext:
`none` corresponds to the runtime's SyntaxError. -/
def jsonParse (input : List Nat) : Option Json :=
  match parseVal (input.length + 1) input with
  | some (j, rest) => if skipWs rest = [] then some j else none
  | none => none

/-- The shape the specification calls a valid flat string-to-string mapping. -/
def isFlatStringMap : Json → Bool
  | Json.jobj fields =>
      fields.all (fun p => match p.2 with | Json.jstr _ => true | _ => false)
  | _ => false

def natToDigits (fuel n : Nat) : List Nat :=
  match fuel with
  | 0 => []
  | fuel + 1 => if n < 10 then [48 + n] else natToDigits fuel (n / 10) ++ [48 + n % 10]

def intToBytes (i : Int) : List Nat :=
  if i < 0 then 45 :: natToDigits (i.natAbs + 1) i.natAbs
  else natToDigits (i.natAbs + 1) i.natAbs

def quoteStr (s : List Nat) : List Nat := 34 :: (s ++ [34])

mutual

/-- Models `JSON.stringify(data, null, 2)` up to insignificant whitespace
(no claim depends on the whitespace layout of the serialized form). -/
def jsonStringify : Json → List Nat
  | Json.jnull => [110, 117, 108, 108]
  | Json.jbool true => [116, 114, 117, 101]
  | Json.jbool false => [102, 97, 108, 115, 101]
  | Json.jnum n => intToBytes n
  | Json.jstr s => quoteStr s
  | Json.jarr xs => 91 :: (jsonStringifyList xs ++ [93])
  | Json.jobj fields => 123 :: (jsonStringifyFields fields ++ [125])

def jsonStringifyList : List Json → List Nat
  | [] => []
  | [x] => jsonStringify x
  | x :: rest => jsonStringify x ++ 44 :: jsonStringifyList rest

def jsonStringifyFields : List (List Nat × Json) → List Nat
  | [] => []
  | [(k, v)] => quoteStr k ++ 58 :: jsonStringify v
  | (k, v) :: rest => quoteStr k ++ 58 :: jsonStringify v ++ 44 :: jsonStringifyFields rest

end

/-! ## The persisted vault file (`readVault` / `writeVault` / `initVault`)

The filesystem is a finite map from paths to file contents.  `writeVault`
additionally reports the trace of filesystem operations it performs, so that
claims about write strategy (temp file + rename vs direct overwrite) can be
stated. -/

structure FS where
  files : List (String × String)
  deriving DecidableEq, Repr

def FS.pathExists (fs : FS) (path : String) : Bool :=
  fs.files.any (fun p => p.1 = path)

def FS.readFile (fs : FS) (path : String) : String :=
  ((fs.files.find? (fun p => p.1 = path)).map (fun p => p.2)).getD ""

def FS.setFile (fs : FS) (path content : String) : FS :=
  if fs.files.any (fun p => p.1 = path) then
    ⟨fs.files.map (fun p => if p.1 = path then (path, content) else p)⟩
  else ⟨fs.files ++ [(path, content)]⟩

inductive FsOp where
  | writeFileOp (path : String) (content : String) (mode : Nat)
  | renameOp (src dst : String)
  deriving DecidableEq, Repr

def FsOp.isRename : FsOp → Bool
  | FsOp.renameOp _ _ => true
  | _ => false

def hasRename (ops : List FsOp) : Bool := ops.any FsOp.isRename

def writesTo (ops : List FsOp) (path : String) : Bool :=
  ops.any (fun op =>
    match op with
    | FsOp.writeFileOp q _ _ => q = path
    | _ => false)

/-- `readVault(vaultFile, password)` from `src/commands/vault.ts`: throw if
the file does not exist, otherwise decrypt the envelope text and return
`JSON.parse(decryptedContent)` — the `as Record<string, string>` cast performs
no runtime validation. -/
def readVault (fs : FS) (vaultFile password : String) : Except VErr Json :=
  if fs.pathExists vaultFile then
    match decrypt (fs.readFile vaultFile) password with
    | Except.error e => Except.error e
    | Except.ok pt =>
      match jsonParse pt with
      | some j => Except.ok j
      | none => Except.error VErr.jsonSyntax
  else Except.error VErr.notFound

/-- `writeVault(vaultFile, password, data)` from `src/commands/vault.ts`:
serialize, encrypt, then `fs.writeFile(vaultFile, encryptedContent,
{ encoding: 'utf8', mode: 0o600 })` — a single direct write to the target
path.  Returns the updated filesystem and the operation trace. -/
def writeVault (fs : FS) (vaultFile password : String) (data : Json)
    (salt iv : List Nat) : FS × List FsOp :=
  let jsonContent := jsonStringify data
  let encryptedContent := encrypt jsonContent password salt iv
  (fs.setFile vaultFile encryptedContent,
    [FsOp.writeFileOp vaultFile encryptedContent 384])

/-- `initVault(vaultFile, password)`: write an empty vault. -/
def initVault (fs : FS) (vaultFile password : String) (salt iv : List Nat) :
    FS × List FsOp :=
  writeVault fs vaultFile password (Json.jobj []) salt iv

/-! ## VaultService session state machine (`src/VaultService.ts`)

The mutable fields of the service instance form the state.  The relock timer
handle is `Option Nat` (armed with the remaining idle duration).  External
inputs — the filesystem, the password the human would supply if prompted, and
the fresh randomness drawn on a write — are explicit parameters, and each
operation reports the prompt / file-content effects it performed.  The cached
vault data is an arbitrary JSON value because `readVault`'s result is cached
without runtime validation. -/

structure SessionState where
  vaultFile : String
  relockTime : Nat
  sessionPassword : Option String
  vaultData : Option Json
  relockTimer : Option Nat

/-- JS truthiness test `!x` on a `string | undefined` field: true for
`undefined` and for the empty string. -/
def falsy : Option String → Bool
  | none => true
  | some s => s = ""

/-- State built by the constructor: everything locked, nothing cached. -/
def initialState (vaultFile : String) (relockTime : Nat) : SessionState :=
  ⟨vaultFile, relockTime, none, none, none⟩

/-- `scheduleRelock()`: arm the timer for the full configured duration. -/
def scheduleRelock (s : SessionState) : SessionState :=
  { s with relockTimer := some s.relockTime }

/-- `lock()`: clear the cached data and password, cancel any armed timer. -/
def lock (s : SessionState) : SessionState :=
  { s with vaultData := none, sessionPassword := none, relockTimer := none }

inductive Eff where
  | promptEff
  | readFileEff
  | writeFileEff
  deriving DecidableEq, Repr

structure Out (α : Type) where
  result : Except VErr α
  state : SessionState
  fs : FS
  effs : List Eff

/-- JS truthiness of the cached `vaultData` field.  Its declared type is
`Record<string, string> | undefined`, but the unchecked cast in `readVault`
means any JSON value can end up cached; `undefined`, `null`, `false`, `0`
and the empty string are all falsy, so the guard `if (this.vaultData)`
treats a session caching such a value as locked. -/
def jsTruthy : Option Json → Bool
  | none => false
  | some Json.jnull => false
  | some (Json.jbool false) => false
  | some (Json.jnum 0) => false
  | some (Json.jstr []) => false
  | some _ => true

/-- `unlockVault(agent)` from `src/VaultService.ts`.  In order: re-arm the
timer if armed; return the cached value when the truthiness guard
`if (this.vaultData)` passes; otherwise either run the initialization path
(missing file: prompt for a new password, reject the empty string, write an
empty vault, cache it, arm the timer) or the unlock path (prompt only when
no usable password is cached, reject the empty string, read and decrypt the
file; on success cache record and password and arm the timer; on any
failure clear the cached password — and only the password — and report a
decrypt failure). -/
def unlockVault (s : SessionState) (fs : FS) (prompt : String)
    (salt iv : List Nat) : Out Json :=
  let s1 := if s.relockTimer.isSome then { s with relockTimer := some s.relockTime } else s
  if jsTruthy s1.vaultData then
    ⟨Except.ok (s1.vaultData.getD Json.jnull), s1, fs, []⟩
  else
    if fs.pathExists s1.vaultFile then
      let s2 := if falsy s1.sessionPassword then { s1 with sessionPassword := some prompt }
        else s1
      let effs1 : List Eff := if falsy s1.sessionPassword then [Eff.promptEff] else []
      if falsy s2.sessionPassword then ⟨Except.error VErr.emptyPassword, s2, fs, effs1⟩
      else
        match readVault fs s2.vaultFile (s2.sessionPassword.getD "") with
        | Except.ok d =>
            ⟨Except.ok d, scheduleRelock { s2 with vaultData := some d }, fs,
              effs1 ++ [Eff.readFileEff]⟩
        | Except.error _ =>
            ⟨Except.error VErr.decryptFailed, { s2 with sessionPassword := none }, fs,
              effs1 ++ [Eff.readFileEff]⟩
    else
      let s2 := { s1 with sessionPassword := some prompt }
      if falsy s2.sessionPassword then ⟨Except.error VErr.emptyPassword, s2, fs, [Eff.promptEff]⟩
      else
        let fs2 := (initVault fs s2.vaultFile prompt salt iv).1
        ⟨Except.ok (Json.jobj []),
          scheduleRelock { s2 with vaultData := some (Json.jobj []) }, fs2,
          [Eff.promptEff, Eff.writeFileEff]⟩

/-- `save(vaultData, agent)`: reject when no session password is cached,
otherwise write the encrypted vault file and replace the cached data. -/
def save (s : SessionState) (fs : FS) (vaultData : Json) (salt iv : List Nat) : Out Unit :=
  if falsy s.sessionPassword then ⟨Except.error VErr.mustUnlock, s, fs, []⟩
  else
    let fs1 := (writeVault fs s.vaultFile (s.sessionPassword.getD "") vaultData salt iv).1
    ⟨Except.ok (), { s with vaultData := some vaultData }, fs1, [Eff.writeFileEff]⟩

/-- JS property read `vaultData[key]`: a lookup on an object, `undefined`
otherwise. -/
def jsGet : Json → String → Option Json
  | Json.jobj fields, k => (fields.find? (fun p => p.1 = strBytes k)).map (fun p => p.2)
  | _, _ => none

/-- JS property assignment `vaultData[key] = value` on the cached object. -/
def jsSet (j : Json) (k : String) (v : Json) : Json :=
  match j with
  | Json.jobj fields => Json.jobj (objInsert fields (strBytes k) v)
  | other => other

/-- `getItem(key, agent)`: unlock (or use the cache), then read the key. -/
def getItem (s : SessionState) (fs : FS) (prompt : String) (salt iv : List Nat)
    (key : String) : Out (Option Json) :=
  let o := unlockVault s fs prompt salt iv
  match o.result with
  | Except.ok d => ⟨Except.ok (jsGet d key), o.state, o.fs, o.effs⟩
  | Except.error e => ⟨Except.error e, o.state, o.fs, o.effs⟩

/-- `setItem(key, value, agent)`: unlock (or use the cache), assign the key
on the cached object (the cache sees the update immediately — the assignment
is through the same object), then `save` the same object. -/
def setItem (s : SessionState) (fs : FS) (prompt : String) (salt iv : List Nat)
    (key value : String) : Out Unit :=
  let o := unlockVault s fs prompt salt iv
  match o.result with
  | Except.error e => ⟨Except.error e, o.state, o.fs, o.effs⟩
  | Except.ok d =>
    let d1 := jsSet d key (Json.jstr (strBytes value))
    let s1 := { o.state with vaultData := some d1 }
    let o2 := save s1 o.fs d1 salt iv
    ⟨o2.result, o2.state, o2.fs, o.effs ++ o2.effs⟩

/-! ## Reachable session states -/

inductive StepInput where
  | unlockStep (fs : FS) (prompt : String) (salt iv : List Nat)
  | getItemStep (fs : FS) (prompt : String) (salt iv : List Nat) (key : String)
  | setItemStep (fs : FS) (prompt : String) (salt iv : List Nat) (key value : String)
  | saveStep (fs : FS) (data : Json) (salt iv : List Nat)
  | lockStep
  | timerFireStep

/-- One public operation (or a timer expiry) applied to the session.  The
armed timer invokes `lock()` when it fires; an unarmed timer cannot fire. -/
def applyStep (s : SessionState) : StepInput → SessionState
  | StepInput.unlockStep fs prompt salt iv => (unlockVault s fs prompt salt iv).state
  | StepInput.getItemStep fs prompt salt iv key => (getItem s fs prompt salt iv key).state
  | StepInput.setItemStep fs prompt salt iv key value =>
      (setItem s fs prompt salt iv key value).state
  | StepInput.saveStep fs data salt iv => (save s fs data salt iv).state
  | StepInput.lockStep => lock s
  | StepInput.timerFireStep => if s.relockTimer.isSome then lock s else s

/-- States reachable from a freshly constructed service by any sequence of
operations and timer firings. -/
inductive Reachable : SessionState → Prop
  | init (vaultFile : String) (relockTime : Nat) :
      Reachable (initialState vaultFile relockTime)
  | step {s : SessionState} (i : StepInput) : Reachable s → Reachable (applyStep s i)

/-- The invariant of claim C10: an armed relock timer implies an unlocked
session — cached data present and a non-empty cached password. -/
def TimerInv (s : SessionState) : Prop :=
  s.relockTimer.isSome → s.vaultData.isSome ∧ ∃ p, s.sessionPassword = some p ∧ p ≠ ""

/-! ## Object aliasing in `setItem` (`src/VaultService.ts`)

`unlockVault` returns `this.vaultData` itself and `setItem` executes
`vaultData[key] = value` on that value, so reference identity matters for
claim C2.  This model makes the heap explicit: record objects live in a
store, and the session's cache and the value handed to callers are
references (store indices).  It covers unlocked sessions whose cache holds a
flat string record — the shape produced by normal operation, and the scope
of the claim. -/

namespace Alias

abbrev Record := List (String × String)

structure HState where
  store : List Record
  vaultDataRef : Option Nat
  sessionPassword : Option String

structure SetOut where
  result : Except VErr Unit
  state : HState
  savedRef : Option Nat

/-- Property assignment on a record object: replace in place when the key
exists, append otherwise. -/
def recSet (r : Record) (k v : String) : Record :=
  if r.any (fun p => p.1 = k) then r.map (fun p => if p.1 = k then (k, v) else p)
  else r ++ [(k, v)]

/-- The value `unlockVault` hands back to a caller of an unlocked session:
the reference to the cached record object itself (`return this.vaultData`),
not a copy. -/
def unlockRef (s : HState) : Option Nat := s.vaultDataRef

/-- `setItem(key, value)` on an unlocked session: `vaultData[key] = value`
mutates the record object behind the cached reference in place, then `save`
is called with that same reference; `save` re-caches the reference it was
given.  `savedRef` reports which object was passed to `save`. -/
def setItem (s : HState) (k v : String) : SetOut :=
  match s.vaultDataRef with
  | none => ⟨Except.error VErr.decryptFailed, s, none⟩
  | some r =>
    let d := s.store.getD r []
    let store1 := s.store.set r (recSet d k v)
    if falsy s.sessionPassword then
      ⟨Except.error VErr.mustUnlock, { s with store := store1 }, some r⟩
    else ⟨Except.ok (), { s with store := store1, vaultDataRef := some r }, some r⟩

end Alias

/-! ## Helper lemmas about the session operations -/

theorem falsy_false_iff (o : Option String) :
    falsy o = false ↔ ∃ p, o = some p ∧ p ≠ "" := by
  cases o with
  | none => simp [falsy]
  | some s => simp [falsy]

/-- On a session whose cached value passes the truthiness guard
`if (this.vaultData)`, `unlockVault` re-arms an armed timer and returns the
cached value directly, with no prompt and no file access. -/
theorem unlockVault_fast (s : SessionState) (fs : FS) (prompt : String)
    (salt iv : List Nat) (d : Json) (hd : s.vaultData = some d)
    (htr : jsTruthy (some d) = true) :
    unlockVault s fs prompt salt iv =
      ⟨Except.ok d,
        if s.relockTimer.isSome then { s with relockTimer := some s.relockTime } else s,
        fs, []⟩ := by
  unfold unlockVault
  cases ht : s.relockTimer.isSome <;> simp [ht, hd, htr]

theorem getItem_state_eq (s : SessionState) (fs : FS) (prompt : String)
    (salt iv : List Nat) (key : String) :
    (getItem s fs prompt salt iv key).state = (unlockVault s fs prompt salt iv).state := by
  unfold getItem
  cases h : (unlockVault s fs prompt salt iv).result <;> simp [h]

/-- `decrypt` produces only crypto-layer errors. -/
theorem decrypt_error_cases (blob password : String) (e : VErr)
    (h : decrypt blob password = Except.error e) :
    e = VErr.invalidIV ∨ e = VErr.invalidAuthTagLength ∨ e = VErr.authFailed := by
  unfold decrypt at h
  dsimp only at h
  split at h
  · exact Or.inl (Except.error.inj h).symm
  · split at h
    · split at h
      · cases h
      · exact Or.inr (Or.inr (Except.error.inj h).symm)
    · exact Or.inr (Or.inl (Except.error.inj h).symm)

/-! ## Claim theorems -/

/-- C7: On a session already in the Unlocked state (a cached VaultRecord —
a record object, which is always truthy in JS, so the guard
`if (this.vaultData)` takes the fast path — and an armed timer), `unlock()`
returns the cached record with no prompt effect, no file effect and no
filesystem change, and the armed relock timer is cancelled and re-armed for
the full configured idle duration. -/
theorem C7_unlock_fast_path (s : SessionState) (fs : FS) (prompt : String)
    (salt iv : List Nat) (fields : List (List Nat × Json)) (t : Nat)
    (hd : s.vaultData = some (Json.jobj fields)) (ht : s.relockTimer = some t) :
    (unlockVault s fs prompt salt iv).result = Except.ok (Json.jobj fields) ∧
    (unlockVault s fs prompt salt iv).effs = [] ∧
    (unlockVault s fs prompt salt iv).fs = fs ∧
    (unlockVault s fs prompt salt iv).state = { s with relockTimer := some s.relockTime } := by
  rw [unlockVault_fast s fs prompt salt iv (Json.jobj fields) hd rfl]
  simp [ht]

theorem C7_unlock_fast_path_witness :
    (unlockVault ⟨"v", 300000, some "p", some (Json.jobj []), some 5⟩ ⟨[]⟩ "x" [] []).result
        = Except.ok (Json.jobj []) ∧
    (unlockVault ⟨"v", 300000, some "p", some (Json.jobj []), some 5⟩ ⟨[]⟩ "x" [] []).effs = [] ∧
    (unlockVault ⟨"v", 300000, some "p", some (Json.jobj []), some 5⟩ ⟨[]⟩ "x" [] []).fs = ⟨[]⟩ ∧
    (unlockVault ⟨"v", 300000, some "p", some (Json.jobj []), some 5⟩ ⟨[]⟩ "x" [] []).state
        = ⟨"v", 300000, some "p", some (Json.jobj []), some 300000⟩ :=
  C7_unlock_fast_path ⟨"v", 300000, some "p", some (Json.jobj []), some 5⟩ ⟨[]⟩ "x" [] []
    [] 5 rfl rfl

/-- C8: `lock()` is total (the model returns no error value at all) and
idempotent: a second `lock()` produces the identical state, and the locked
state has no cached record, no cached password and no armed timer. -/
theorem C8_lock_idempotent (s : SessionState) :
    lock (lock s) = lock s ∧
    (lock s).vaultData = none ∧
    (lock s).sessionPassword = none ∧
    (lock s).relockTimer = none :=
  ⟨rfl, rfl, rfl, rfl⟩

theorem C8_lock_idempotent_witness :
    lock (lock ⟨"v", 300000, some "p", some (Json.jobj []), some 5⟩) =
      lock ⟨"v", 300000, some "p", some (Json.jobj []), some 5⟩ ∧
    (lock ⟨"v", 300000, some "p", some (Json.jobj []), some 5⟩).vaultData = none ∧
    (lock ⟨"v", 300000, some "p", some (Json.jobj []), some 5⟩).sessionPassword = none ∧
    (lock ⟨"v", 300000, some "p", some (Json.jobj []), some 5⟩).relockTimer = none :=
  C8_lock_idempotent ⟨"v", 300000, some "p", some (Json.jobj []), some 5⟩

/-- C9: On an unlocked session caching a record object, `getItem(key)`
returns exactly the stored lookup: the stored string when the key is present
(including the empty string), and the distinct absent result (`none`,
JS `undefined`) when the key was never set.  A stored empty string is never
conflated with absence. -/
theorem C9_getItem_absent_vs_empty (s : SessionState) (fs : FS) (prompt : String)
    (salt iv : List Nat) (key : String) (fields : List (List Nat × Json))
    (hd : s.vaultData = some (Json.jobj fields)) :
    (getItem s fs prompt salt iv key).result =
      Except.ok ((fields.find? (fun p => p.1 = strBytes key)).map (fun p => p.2)) ∧
    (∀ v, fields.find? (fun p => p.1 = strBytes key) = some (strBytes key, Json.jstr v) →
      (getItem s fs prompt salt iv key).result = Except.ok (some (Json.jstr v))) ∧
    (fields.find? (fun p => p.1 = strBytes key) = none →
      (getItem s fs prompt salt iv key).result = Except.ok none) ∧
    (∀ v, (Except.ok (some (Json.jstr v)) : Except VErr (Option Json)) ≠ Except.ok none) := by
  have hfast := unlockVault_fast s fs prompt salt iv (Json.jobj fields) hd rfl
  refine ⟨?_, ?_, ?_, ?_⟩
  · unfold getItem
    simp [hfast, jsGet]
  · intro v hv
    unfold getItem
    simp [hfast, jsGet, hv]
  · intro hv
    unfold getItem
    simp [hfast, jsGet, hv]
  · intro v h
    simp at h

theorem C9_getItem_absent_vs_empty_witness :
    (getItem ⟨"v", 300000, some "p", some (Json.jobj [([107], Json.jstr [])]), some 5⟩
        ⟨[]⟩ "x" [] [] "k").result = Except.ok (some (Json.jstr [])) ∧
    (getItem ⟨"v", 300000, some "p", some (Json.jobj [([107], Json.jstr [])]), some 5⟩
        ⟨[]⟩ "x" [] [] "j").result = Except.ok none := by
  constructor
  · exact (C9_getItem_absent_vs_empty _ ⟨[]⟩ "x" [] [] "k" [([107], Json.jstr [])] rfl).2.1
      [] (by rfl)
  · exact (C9_getItem_absent_vs_empty _ ⟨[]⟩ "x" [] [] "j" [([107], Json.jstr [])] rfl).2.2.1
      (by rfl)

/-- C2 counterexample: on the concrete unlocked session whose cached record
object (reference 0, contents the empty record) was just returned by
`unlockVault`, `setItem("k", "v")` changes the record object behind that very
reference — the record previously returned to the caller IS mutated in
place — and the reference passed to `save` is that same object, with no new
object allocated.  This contradicts the claim that `setItem` updates a copy
and never mutates the aliased record. -/
theorem C2_counterexample :
    Alias.unlockRef ⟨[[]], some 0, some "p"⟩ = some 0 ∧
    (⟨[[]], some 0, some "p"⟩ : Alias.HState).store.get? 0 = some [] ∧
    (Alias.setItem ⟨[[]], some 0, some "p"⟩ "k" "v").state.store.get? 0
        = some [("k", "v")] ∧
    (Alias.setItem ⟨[[]], some 0, some "p"⟩ "k" "v").savedRef = some 0 ∧
    (Alias.setItem ⟨[[]], some 0, some "p"⟩ "k" "v").state.store.length
        = (⟨[[]], some 0, some "p"⟩ : Alias.HState).store.length :=
  ⟨rfl, rfl, rfl, rfl, rfl⟩

/-- C2 (amended): on every unlocked session, `setItem(k, v)` assigns
`k -> v` by mutating the cached record object in place through the reference
previously returned to callers, and passes that same reference (not a copy)
to `save`; no new record object is allocated. -/
theorem C2_setItem_mutates_in_place (s : Alias.HState) (r : Nat) (k v : String)
    (d : Alias.Record) (hr : s.vaultDataRef = some r) (hd : s.store.get? r = some d)
    (hpw : falsy s.sessionPassword = false) :
    Alias.setItem s k v =
      ⟨Except.ok (),
        { s with store := s.store.set r (Alias.recSet d k v), vaultDataRef := some r },
        some r⟩ ∧
    (s.store.set r (Alias.recSet d k v)).length = s.store.length := by
  constructor
  · unfold Alias.setItem
    have hgd : s.store[r]?.getD [] = d := by
      have h' : s.store[r]? = some d := by rw [← List.get?_eq_getElem?]; exact hd
      rw [h']; rfl
    simp [hr, hpw, hgd]
  · exact List.length_set s.store r (Alias.recSet d k v)

theorem C2_setItem_mutates_in_place_witness :
    Alias.setItem ⟨[[]], some 0, some "p"⟩ "k" "v" =
      ⟨Except.ok (), ⟨[[("k", "v")]], some 0, some "p"⟩, some 0⟩ ∧
    ((⟨[[]], some 0, some "p"⟩ : Alias.HState).store.set 0
        (Alias.recSet [] "k" "v")).length
      = (⟨[[]], some 0, some "p"⟩ : Alias.HState).store.length :=
  C2_setItem_mutates_in_place ⟨[[]], some 0, some "p"⟩ 0 "k" "v" [] rfl rfl rfl

/-- C5 counterexample: on a concrete write, the operation trace of
`writeVault` is a single direct `writeFile` to the target path — there is no
temporary file and no rename, contradicting the claim that `writeVault`
writes a temporary file and atomically renames it over the target. -/
theorem C5_counterexample :
    hasRename (writeVault ⟨[]⟩ "v" "pw" (Json.jobj [])
      (List.replicate 16 0) (List.replicate 12 0)).2 = false ∧
    writesTo (writeVault ⟨[]⟩ "v" "pw" (Json.jobj [])
      (List.replicate 16 0) (List.replicate 12 0)).2 "v" = true ∧
    (writeVault ⟨[]⟩ "v" "pw" (Json.jobj [])
      (List.replicate 16 0) (List.replicate 12 0)).2.length = 1 :=
  ⟨rfl, rfl, rfl⟩

/-- C5 (amended): `writeVault` serializes and encrypts the record, then
performs exactly one filesystem operation: a direct write of the ciphertext
to the target path itself with mode 0600 (384) — an in-place overwrite with
no temporary file and no rename, so a crash mid-write can leave a partial
file. -/
theorem C5_write_in_place (fs : FS) (vaultFile password : String) (data : Json)
    (salt iv : List Nat) :
    (writeVault fs vaultFile password data salt iv).2 =
      [FsOp.writeFileOp vaultFile (encrypt (jsonStringify data) password salt iv) 384] ∧
    hasRename (writeVault fs vaultFile password data salt iv).2 = false ∧
    (writeVault fs vaultFile password data salt iv).1 =
      fs.setFile vaultFile (encrypt (jsonStringify data) password salt iv) :=
  ⟨rfl, rfl, rfl⟩

theorem C5_write_in_place_witness :
    (writeVault ⟨[]⟩ "w" "pw" (Json.jobj []) (List.replicate 16 1) (List.replicate 12 1)).2 =
      [FsOp.writeFileOp "w" (encrypt (jsonStringify (Json.jobj [])) "pw"
        (List.replicate 16 1) (List.replicate 12 1)) 384] ∧
    hasRename (writeVault ⟨[]⟩ "w" "pw" (Json.jobj [])
      (List.replicate 16 1) (List.replicate 12 1)).2 = false ∧
    (writeVault ⟨[]⟩ "w" "pw" (Json.jobj [])
        (List.replicate 16 1) (List.replicate 12 1)).1 =
      FS.setFile ⟨[]⟩ "w" (encrypt (jsonStringify (Json.jobj []))
        "pw" (List.replicate 16 1) (List.replicate 12 1)) :=
  C5_write_in_place ⟨[]⟩ "w" "pw" (Json.jobj []) (List.replicate 16 1) (List.replicate 12 1)

/-- C6 counterexample: the blob "AAAA" is valid base64 for 3 bytes — far
shorter than the 44-byte fixed header — yet `decrypt` fails with the crypto
layer's invalid-iv error (the empty GCM iv is rejected by `createDecipheriv`),
not with a `MalformedEnvelopeError`; no such structural error exists in the
code. -/
theorem C6_counterexample :
    (b64DecodeLenient "AAAA").length < 44 ∧
    decrypt "AAAA" "pw" = Except.error VErr.invalidIV ∧
    (Except.error VErr.invalidIV : Except VErr (List Nat))
      ≠ Except.error VErr.malformedEnvelope := by
  refine ⟨by decide, by rfl, by simp⟩

/-- C6 (amended): `decrypt` performs no structural validation of its own:
base64 is decoded leniently (invalid characters are dropped, never rejected)
and no blob — short, malformed or otherwise — ever fails with a
`MalformedEnvelopeError`; every failure is a crypto-layer error (invalid iv,
invalid auth tag length, or authentication failure). -/
theorem C6_no_malformed_envelope_error (blob password : String) :
    decrypt blob password ≠ Except.error VErr.malformedEnvelope := by
  intro h
  rcases decrypt_error_cases blob password VErr.malformedEnvelope h with h' | h' | h' <;>
    cases h'

theorem C6_no_malformed_envelope_error_witness :
    decrypt "!!!!" "pw" ≠ Except.error VErr.malformedEnvelope :=
  C6_no_malformed_envelope_error "!!!!" "pw"

/-- C3: Whenever an unlock attempt reaches the read of the existing vault
file (session locked, file present, effective password non-empty) and
`readVault` fails — any failure, in particular a decryption failure — the
session clears its cached password, remains Locked with no cached record, and
the call surfaces an error to the caller after exactly one read attempt (one
prompt at most, one file read, no retry). -/
theorem C3_decrypt_failure_clears_password (s : SessionState) (fs : FS)
    (prompt : String) (salt iv : List Nat) (e : VErr)
    (hd : s.vaultData = none)
    (hex : fs.pathExists s.vaultFile = true)
    (hpw : falsy (if falsy s.sessionPassword then some prompt else s.sessionPassword) = false)
    (hfail : readVault fs s.vaultFile
        ((if falsy s.sessionPassword then some prompt else s.sessionPassword).getD "")
      = Except.error e) :
    (unlockVault s fs prompt salt iv).result = Except.error VErr.decryptFailed ∧
    (unlockVault s fs prompt salt iv).state.sessionPassword = none ∧
    (unlockVault s fs prompt salt iv).state.vaultData = none ∧
    ((unlockVault s fs prompt salt iv).effs = [Eff.readFileEff] ∨
      (unlockVault s fs prompt salt iv).effs = [Eff.promptEff, Eff.readFileEff]) := by
  unfold unlockVault
  cases ht : s.relockTimer.isSome <;>
    cases hcp : falsy s.sessionPassword <;>
      simp_all [hd, hex, jsTruthy]

theorem C3_decrypt_failure_clears_password_witness :
    (unlockVault (initialState "v" 300000) ⟨[("v", "AAAA")]⟩ "pw" [] []).result
        = Except.error VErr.decryptFailed ∧
    (unlockVault (initialState "v" 300000) ⟨[("v", "AAAA")]⟩ "pw" [] []).state.sessionPassword
        = none ∧
    (unlockVault (initialState "v" 300000) ⟨[("v", "AAAA")]⟩ "pw" [] []).state.vaultData
        = none ∧
    ((unlockVault (initialState "v" 300000) ⟨[("v", "AAAA")]⟩ "pw" [] []).effs
        = [Eff.readFileEff] ∨
      (unlockVault (initialState "v" 300000) ⟨[("v", "AAAA")]⟩ "pw" [] []).effs
        = [Eff.promptEff, Eff.readFileEff]) :=
  C3_decrypt_failure_clears_password (initialState "v" 300000) ⟨[("v", "AAAA")]⟩
    "pw" [] [] VErr.invalidIV rfl rfl rfl rfl

/-- C4 counterexample: a vault file whose plaintext is the JSON text with
bytes of a one-field object mapping the key "a" (byte 97) to the number 1 —
not a flat string-to-string mapping — decrypts successfully, and `readVault`
returns the parsed object with no error, where the claim requires a
`CorruptDataError`. -/
theorem C4_counterexample :
    decrypt (encrypt [123, 34, 97, 34, 58, 49, 125] "pw"
        (List.replicate 16 2) (List.replicate 12 9)) "pw"
      = Except.ok [123, 34, 97, 34, 58, 49, 125] ∧
    jsonParse [123, 34, 97, 34, 58, 49, 125] = some (Json.jobj [([97], Json.jnum 1)]) ∧
    isFlatStringMap (Json.jobj [([97], Json.jnum 1)]) = false ∧
    readVault ⟨[("v", encrypt [123, 34, 97, 34, 58, 49, 125] "pw"
        (List.replicate 16 2) (List.replicate 12 9))]⟩ "v" "pw"
      = Except.ok (Json.jobj [([97], Json.jnum 1)]) ∧
    readVault ⟨[("v", encrypt [123, 34, 97, 34, 58, 49, 125] "pw"
        (List.replicate 16 2) (List.replicate 12 9))]⟩ "v" "pw"
      ≠ Except.error VErr.corruptData := by
  refine ⟨by rfl, by rfl, by rfl, by rfl, ?_⟩
  intro h
  rw [show readVault ⟨[("v", encrypt [123, 34, 97, 34, 58, 49, 125] "pw"
      (List.replicate 16 2) (List.replicate 12 9))]⟩ "v" "pw"
    = Except.ok (Json.jobj [([97], Json.jnum 1)]) from rfl] at h
  cases h

/-- C4 (amended): `readVault` fails with `NotFoundError` exactly when the
vault file does not exist.  When the file exists and decryption succeeds, the
result is the parsed JSON value whenever the plaintext parses — with no
validation that it is a flat string-to-string mapping — and `readVault` never
produces a `CorruptDataError` (parse failures surface as the runtime's
SyntaxError). -/
theorem C4_read_contract (fs : FS) (vaultFile password : String) :
    (readVault fs vaultFile password = Except.error VErr.notFound ↔
      fs.pathExists vaultFile = false) ∧
    (∀ pt j, fs.pathExists vaultFile = true →
      decrypt (fs.readFile vaultFile) password = Except.ok pt →
      jsonParse pt = some j →
      readVault fs vaultFile password = Except.ok j) ∧
    readVault fs vaultFile password ≠ Except.error VErr.corruptData := by
  cases hex : fs.pathExists vaultFile with
  | false =>
    refine ⟨by simp [readVault, hex], ?_, ?_⟩
    · intro pt j h
      simp [hex] at h
    · simp [readVault, hex]
  | true =>
    cases hdec : decrypt (fs.readFile vaultFile) password with
    | error e =>
      rcases decrypt_error_cases _ _ e hdec with h' | h' | h' <;>
        subst h' <;>
          refine ⟨by simp [readVault, hex, hdec], ?_, by simp [readVault, hex, hdec]⟩ <;>
            (intro pt j _ hdec' _; exact Except.noConfusion hdec')
    | ok pt =>
      cases hj : jsonParse pt with
      | none =>
        refine ⟨by simp [readVault, hex, hdec, hj], ?_, by simp [readVault, hex, hdec, hj]⟩
        intro pt' j _ hdec' hj'
        have hpt : pt = pt' := Except.ok.inj hdec'
        subst hpt
        exact Option.noConfusion (hj.symm.trans hj')
      | some j =>
        refine ⟨by simp [readVault, hex, hdec, hj], ?_, by simp [readVault, hex, hdec, hj]⟩
        intro pt' j' _ hdec' hj'
        have hpt : pt = pt' := Except.ok.inj hdec'
        subst hpt
        have hjj : j = j' := Option.some.inj (hj.symm.trans hj')
        subst hjj
        simp [readVault, hex, hdec, hj]

theorem C4_read_contract_witness :
    readVault ⟨[("v", encrypt [123, 34, 97, 34, 58, 49, 125] "pw"
        (List.replicate 16 2) (List.replicate 12 9))]⟩ "v" "pw"
      = Except.ok (Json.jobj [([97], Json.jnum 1)]) :=
  (C4_read_contract ⟨[("v", encrypt [123, 34, 97, 34, 58, 49, 125] "pw"
      (List.replicate 16 2) (List.replicate 12 9))]⟩ "v" "pw").2.1
    [123, 34, 97, 34, 58, 49, 125] (Json.jobj [([97], Json.jnum 1)])
    (by rfl) (by rfl) (by rfl)

/-! ## The invariant over reachable states -/

theorem jsTruthy_isSome (o : Option Json) (h : jsTruthy o = true) : o.isSome := by
  cases o with
  | none => simp [jsTruthy] at h
  | some j => rfl

/-- Property assignment does not change the truthiness of the cached value:
an object stays an object, and on a non-object the assignment is a no-op. -/
theorem jsTruthy_jsSet (d : Json) (k : String) (v : Json) :
    jsTruthy (some (jsSet d k v)) = jsTruthy (some d) := by
  cases d <;> rfl

/-- When `unlockVault` succeeds, the value it returns is exactly the value
cached in the resulting state. -/
theorem unlockVault_ok_cache (s : SessionState) (fs : FS) (prompt : String)
    (salt iv : List Nat) (d : Json)
    (h : (unlockVault s fs prompt salt iv).result = Except.ok d) :
    (unlockVault s fs prompt salt iv).state.vaultData = some d := by
  unfold unlockVault at h ⊢
  cases ht : s.relockTimer.isSome <;>
    [simp only [ht, Bool.false_eq_true, if_false] at h ⊢;
     simp only [ht, if_true] at h ⊢] <;>
  · cases htr : jsTruthy s.vaultData with
    | true =>
      obtain ⟨x, hx⟩ := Option.isSome_iff_exists.mp (jsTruthy_isSome _ htr)
      rw [hx] at htr
      simp only [hx, htr, if_true] at h ⊢
      rw [← Except.ok.inj h]
      rfl
    | false =>
      simp only [htr, Bool.false_eq_true, if_false] at h ⊢
      cases hex : fs.pathExists s.vaultFile with
      | true =>
        simp only [hex, if_true] at h ⊢
        cases hcp : falsy s.sessionPassword with
        | true =>
          simp only [hcp, if_true] at h ⊢
          cases hpp : falsy (some prompt) with
          | true =>
            simp only [hpp, if_true] at h ⊢
            exact Except.noConfusion h
          | false =>
            simp only [hpp, Bool.false_eq_true, if_false] at h ⊢
            cases hread : readVault fs s.vaultFile ((some prompt).getD "") with
            | ok j =>
              simp only [hread] at h ⊢
              rw [← Except.ok.inj h]
              rfl
            | error e =>
              simp only [hread] at h ⊢
              exact Except.noConfusion h
        | false =>
          simp only [hcp, Bool.false_eq_true, if_false] at h ⊢
          cases hread : readVault fs s.vaultFile (s.sessionPassword.getD "") with
          | ok j =>
            simp only [hread] at h ⊢
            rw [← Except.ok.inj h]
            rfl
          | error e =>
            simp only [hread] at h ⊢
            exact Except.noConfusion h
      | false =>
        simp only [hex, Bool.false_eq_true, if_false] at h ⊢
        cases hpp : falsy (some prompt) with
        | true =>
          simp only [hpp, if_true] at h ⊢
          exact Except.noConfusion h
        | false =>
          simp only [hpp, Bool.false_eq_true, if_false] at h ⊢
          rw [← Except.ok.inj h]
          rfl

/-- The invariant that actually holds on reachable session states (claim C10
amended): an armed relock timer implies the cached `vaultData` field is
defined (not `undefined`), and whenever the cached value is truthy — the
session counts as unlocked for the guard `if (this.vaultData)`, in
particular whenever a record object is cached — the cached session password
is a non-empty string. -/
def SessionInv (s : SessionState) : Prop :=
  (s.relockTimer.isSome → s.vaultData.isSome) ∧
  (jsTruthy s.vaultData = true → ∃ p, s.sessionPassword = some p ∧ p ≠ "")

theorem SessionInv_lock (s : SessionState) : SessionInv (lock s) := by
  constructor
  · intro h; simp [lock] at h
  · intro h; simp [lock, jsTruthy] at h

theorem SessionInv_save (s : SessionState) (fs : FS) (d : Json) (salt iv : List Nat)
    (hs : SessionInv s) : SessionInv (save s fs d salt iv).state := by
  unfold save
  cases hp : falsy s.sessionPassword with
  | true =>
    simp only [hp, if_true]
    exact hs
  | false =>
    simp only [hp, Bool.false_eq_true, if_false]
    constructor
    · intro _; rfl
    · intro _
      exact (falsy_false_iff s.sessionPassword).mp hp

theorem SessionInv_unlockVault (s : SessionState) (fs : FS) (prompt : String)
    (salt iv : List Nat) (hs : SessionInv s) :
    SessionInv (unlockVault s fs prompt salt iv).state := by
  obtain ⟨hs1, hs2⟩ := hs
  unfold unlockVault
  cases ht : s.relockTimer.isSome with
  | true =>
    simp only [ht, if_true]
    cases htr : jsTruthy s.vaultData with
    | true =>
      simp only [htr, if_true]
      exact ⟨fun _ => hs1 ht, fun h' => hs2 h'⟩
    | false =>
      simp only [htr, Bool.false_eq_true, if_false]
      cases hex : fs.pathExists s.vaultFile with
      | true =>
        simp only [hex, if_true]
        cases hcp : falsy s.sessionPassword with
        | true =>
          simp only [hcp, if_true]
          cases hpp : falsy (some prompt) with
          | true =>
            simp only [hpp, if_true]
            exact ⟨fun _ => hs1 ht, fun h' => absurd h' (by simp [htr])⟩
          | false =>
            simp only [hpp, Bool.false_eq_true, if_false]
            obtain ⟨p, hp, hpne⟩ := (falsy_false_iff (some prompt)).mp hpp
            cases hread : readVault fs s.vaultFile ((some prompt).getD "") with
            | ok j =>
              simp only [hread]
              exact ⟨fun _ => rfl, fun _ => ⟨p, hp, hpne⟩⟩
            | error e =>
              simp only [hread]
              exact ⟨fun _ => hs1 ht, fun h' => absurd h' (by simp [htr])⟩
        | false =>
          simp only [hcp, Bool.false_eq_true, if_false]
          obtain ⟨p, hp, hpne⟩ := (falsy_false_iff s.sessionPassword).mp hcp
          cases hread : readVault fs s.vaultFile (s.sessionPassword.getD "") with
          | ok j =>
            simp only [hread]
            exact ⟨fun _ => rfl, fun _ => ⟨p, hp, hpne⟩⟩
          | error e =>
            simp only [hread]
            exact ⟨fun _ => hs1 ht, fun h' => absurd h' (by simp [htr])⟩
      | false =>
        simp only [hex, Bool.false_eq_true, if_false]
        cases hpp : falsy (some prompt) with
        | true =>
          simp only [hpp, if_true]
          exact ⟨fun _ => hs1 ht, fun h' => absurd h' (by simp [htr])⟩
        | false =>
          simp only [hpp, Bool.false_eq_true, if_false]
          obtain ⟨p, hp, hpne⟩ := (falsy_false_iff (some prompt)).mp hpp
          exact ⟨fun _ => rfl, fun _ => ⟨p, hp, hpne⟩⟩
  | false =>
    have htn : s.relockTimer = none := Option.not_isSome_iff_eq_none.mp (by simp [ht])
    simp only [ht, Bool.false_eq_true, if_false]
    cases htr : jsTruthy s.vaultData with
    | true =>
      simp only [htr, if_true]
      exact ⟨hs1, hs2⟩
    | false =>
      simp only [htr, Bool.false_eq_true, if_false]
      cases hex : fs.pathExists s.vaultFile with
      | true =>
        simp only [hex, if_true]
        cases hcp : falsy s.sessionPassword with
        | true =>
          simp only [hcp, if_true]
          cases hpp : falsy (some prompt) with
          | true =>
            simp only [hpp, if_true]
            refine ⟨fun htm => ?_, fun h' => absurd h' (by simp [htr])⟩
            rw [htn] at htm
            cases htm
          | false =>
            simp only [hpp, Bool.false_eq_true, if_false]
            obtain ⟨p, hp, hpne⟩ := (falsy_false_iff (some prompt)).mp hpp
            cases hread : readVault fs s.vaultFile ((some prompt).getD "") with
            | ok j =>
              simp only [hread]
              exact ⟨fun _ => rfl, fun _ => ⟨p, hp, hpne⟩⟩
            | error e =>
              simp only [hread]
              refine ⟨fun htm => ?_, fun h' => absurd h' (by simp [htr])⟩
              rw [htn] at htm
              cases htm
        | false =>
          simp only [hcp, Bool.false_eq_true, if_false]
          obtain ⟨p, hp, hpne⟩ := (falsy_false_iff s.sessionPassword).mp hcp
          cases hread : readVault fs s.vaultFile (s.sessionPassword.getD "") with
          | ok j =>
            simp only [hread]
            exact ⟨fun _ => rfl, fun _ => ⟨p, hp, hpne⟩⟩
          | error e =>
            simp only [hread]
            refine ⟨fun htm => ?_, fun h' => absurd h' (by simp [htr])⟩
            rw [htn] at htm
            cases htm
      | false =>
        simp only [hex, Bool.false_eq_true, if_false]
        cases hpp : falsy (some prompt) with
        | true =>
          simp only [hpp, if_true]
          refine ⟨fun htm => ?_, fun h' => absurd h' (by simp [htr])⟩
          rw [htn] at htm
          cases htm
        | false =>
          simp only [hpp, Bool.false_eq_true, if_false]
          obtain ⟨p, hp, hpne⟩ := (falsy_false_iff (some prompt)).mp hpp
          exact ⟨fun _ => rfl, fun _ => ⟨p, hp, hpne⟩⟩

theorem SessionInv_getItem (s : SessionState) (fs : FS) (prompt : String)
    (salt iv : List Nat) (key : String) (hs : SessionInv s) :
    SessionInv (getItem s fs prompt salt iv key).state := by
  rw [getItem_state_eq]
  exact SessionInv_unlockVault s fs prompt salt iv hs

theorem SessionInv_setItem (s : SessionState) (fs : FS) (prompt : String)
    (salt iv : List Nat) (key value : String) (hs : SessionInv s) :
    SessionInv (setItem s fs prompt salt iv key value).state := by
  unfold setItem
  cases h : (unlockVault s fs prompt salt iv).result with
  | error e =>
    simp only [h]
    exact SessionInv_unlockVault s fs prompt salt iv hs
  | ok d =>
    simp only [h]
    have hu := SessionInv_unlockVault s fs prompt salt iv hs
    have hcache := unlockVault_ok_cache s fs prompt salt iv d h
    have h1 : SessionInv { (unlockVault s fs prompt salt iv).state with
        vaultData := some (jsSet d key (Json.jstr (strBytes value))) } := by
      constructor
      · intro _; rfl
      · intro htv
        rw [jsTruthy_jsSet] at htv
        rw [← hcache] at htv
        exact hu.2 htv
    exact SessionInv_save _ _ _ _ _ h1

theorem SessionInv_step (s : SessionState) (i : StepInput) (hs : SessionInv s) :
    SessionInv (applyStep s i) := by
  cases i with
  | unlockStep fs prompt salt iv => exact SessionInv_unlockVault s fs prompt salt iv hs
  | getItemStep fs prompt salt iv key => exact SessionInv_getItem s fs prompt salt iv key hs
  | setItemStep fs prompt salt iv key value =>
    exact SessionInv_setItem s fs prompt salt iv key value hs
  | saveStep fs data salt iv => exact SessionInv_save s fs data salt iv hs
  | lockStep => exact SessionInv_lock s
  | timerFireStep =>
    simp only [applyStep]
    split
    · exact SessionInv_lock s
    · exact hs

/-! ## Claim C10

The two-step trace below refutes the claimed invariant: a vault file whose
plaintext is the JSON value `null` unlocks successfully — the code caches
`null` and arms the timer — and a second `unlockVault` against a
now-corrupted file re-arms the timer, fails the truthiness guard
`if (this.vaultData)` (null is falsy), reaches the failing read and clears
the cached password, leaving the timer armed with no password. -/

def nullVaultFS : FS :=
  ⟨[("v", encrypt [110, 117, 108, 108] "pw" (List.replicate 16 4) (List.replicate 12 6))]⟩

def corruptVaultFS : FS := ⟨[("v", "AAAA")]⟩

def trickStep1 : StepInput :=
  StepInput.unlockStep nullVaultFS "pw" (List.replicate 16 4) (List.replicate 12 6)

def trickStep2 : StepInput :=
  StepInput.unlockStep corruptVaultFS "x" (List.replicate 16 4) (List.replicate 12 6)

def trickState : SessionState :=
  applyStep (applyStep (initialState "v" 300000) trickStep1) trickStep2

/-- C10 counterexample: the state reached by unlocking a vault whose
plaintext is `null` and then attempting to unlock again after the file is
corrupted is reachable, has the relock timer armed for the full duration and
the cached password cleared — refuting the claimed invariant that an armed
timer implies a non-empty cached password. -/
theorem C10_counterexample :
    Reachable trickState ∧
    trickState.relockTimer = some 300000 ∧
    trickState.sessionPassword = none ∧
    trickState.vaultData = some Json.jnull ∧
    ¬ TimerInv trickState := by
  refine ⟨Reachable.step trickStep2 (Reachable.step trickStep1 (Reachable.init "v" 300000)),
    rfl, rfl, rfl, ?_⟩
  intro h
  obtain ⟨-, p, hp, -⟩ := h (by rfl)
  exact Option.noConfusion ((rfl : trickState.sessionPassword = none).symm.trans hp)

/-- C10 (amended): In every session state reachable by any sequence of
`unlockVault`, `getItem`, `setItem`, `save`, `lock` and timer-fire steps, an
armed relock timer implies the cached `vaultData` field is defined (not
`undefined`), and whenever the cached value is truthy — the session counts
as unlocked for the code's own guard `if (this.vaultData)`, in particular
whenever a record object is cached — the cached session password is a
non-empty string.  The original claim's unconditional password clause fails:
a falsy decrypted value such as `null` can be cached, and a subsequent
failed re-read leaves the timer armed with the password cleared. -/
theorem C10_reachable_session_invariant (s : SessionState) (h : Reachable s) :
    SessionInv s := by
  induction h with
  | init vaultFile relockTime =>
    constructor
    · intro ht
      simp [initialState] at ht
    · intro ht
      simp [initialState, jsTruthy] at ht
  | step i hr ih => exact SessionInv_step _ i ih

theorem C10_reachable_session_invariant_witness :
    SessionInv trickState :=
  C10_reachable_session_invariant trickState
    (Reachable.step trickStep2 (Reachable.step trickStep1 (Reachable.init "v" 300000)))

end Vault
